import Mathlib

/-!
Verification development for the DomainSentry risk scoring engine.

Shallow embedding of `backend/app/risk_engine.py` (class `RiskEngine`, the
"Mode A" analyst-scale scorer) and of `backend/app/services/risk_service.py`
(class `RiskService`, the "Mode B" percentage-scale scorer).

Modelling conventions:
* Python `str` is Lean `String`; per-character operations work on `List Char`
  and `str.lower()` is `Char.toLower` mapped over the characters (the code
  only ever lowercases ASCII domain names and keyword lists).
* Python floats are embedded as exact rationals (`ℚ`) for the constant
  tables and scores, and as real numbers (`ℝ`) for the Shannon-entropy
  computations done with `math.log2` / `scipy.stats.entropy`.
* `datetime` values are integers (seconds); `timedelta.days` is floor
  division by 86400, which matches Python's normalized `timedelta`.
* Dictionaries with a fixed literal shape become structures; the free-form
  `weights` / `tld_risk_scores` dictionaries become association lists with
  `.get(key, default)` embedded as `(List.lookup key m).getD default`.
-/

/-- Python `str.split(sep)` on a list of characters (for a one-character
separator): `"".split('.') == ['']`, `"a.".split('.') == ['a','']`, etc. -/
def pySplit (sep : Char) : List Char → List (List Char)
  | [] => [[]]
  | c :: cs =>
      match pySplit sep cs with
      | [] => [[]]
      | h :: t => if c = sep then [] :: h :: t else (c :: h) :: t

/-- Does `needle` occur at the head of `hay`? (helper for `strIn`). -/
def headMatch : List Char → List Char → Bool
  | [], _ => true
  | _ :: _, [] => false
  | a :: as, b :: bs => a == b && headMatch as bs

/-- Python's `str.lower()`: per-character lowering (kept at the character
level so that it computes by structural recursion). -/
def pyLower (s : String) : String := String.mk (s.toList.map Char.toLower)

/-- Python's substring test `needle in hay`. -/
def strIn (needle : List Char) : List Char → Bool
  | [] => headMatch needle []
  | b :: bs => headMatch needle (b :: bs) || strIn needle bs

/-- Python's `round(q, 4)` with round-half-to-even tie behaviour,
on the exact rational value. -/
def roundHalfEven (q : ℚ) : ℤ :=
  if q - ⌊q⌋ < 1/2 then ⌊q⌋
  else if q - ⌊q⌋ > 1/2 then ⌊q⌋ + 1
  else if 2 ∣ ⌊q⌋ then ⌊q⌋ else ⌊q⌋ + 1

/-- `round(q, 4)` from the result-assembly code of `calculate_overall_risk`. -/
def pyRound4 (q : ℚ) : ℚ := roundHalfEven (q * 10000) / 10000

/-- `domain.split('.')[0] if '.' in domain else domain` — the leftmost label,
as used by the length, entropy and pattern scorers. -/
def leftLabel (l : List Char) : List Char :=
  if '.' ∈ l then (pySplit '.' l).headD [] else l

/-- The risk-engine configuration: the top-level keys of
`config/risk_weights.yaml` and of `RiskEngine._get_default_config`. -/
structure RiskConfig where
  weights : List (String × ℚ)
  suspicious_keywords : List String
  malware_keywords : List String
  phishing_keywords : List String
  tld_risk_scores : List (String × ℚ)

/-- `RiskEngine._get_default_config`. -/
def _get_default_config : RiskConfig where
  weights :=
    [("domain_length", 0.15), ("entropy_score", 0.25), ("tld_risk", 0.20),
     ("keyword_matches", 0.30), ("age_days", 0.10)]
  suspicious_keywords :=
    ["login", "secure", "account", "verify", "update", "bank",
     "paypal", "microsoft", "apple", "support", "service"]
  malware_keywords :=
    ["trojan", "ransomware", "malware", "virus", "spyware",
     "botnet", "keylogger", "backdoor", "exploit", "payload"]
  phishing_keywords :=
    ["phish", "spoof", "clone", "fake", "impersonate",
     "credential", "password", "auth", "authentication"]
  tld_risk_scores :=
    [(".com", 0.1), (".net", 0.2), (".org", 0.15),
     (".xyz", 0.8), (".top", 0.7), (".loan", 0.9),
     (".click", 0.8), (".win", 0.7), (".biz", 0.6),
     (".info", 0.5), (".online", 0.6), (".site", 0.7),
     (".work", 0.6), (".club", 0.5), (".store", 0.4)]

/-- What the configuration source can look like to `RiskEngine._load_config`:
the file may be missing (`open` raises `FileNotFoundError`), unreadable
(`open` raises a `PermissionError`/`OSError`), hold malformed YAML
(`yaml.safe_load` raises a `YAMLError`), or parse to a configuration. -/
inductive ConfigSource where
  | missing
  | unreadable
  | malformed
  | valid (c : RiskConfig)

/-- The Python exceptions relevant to config loading. -/
inductive PyError where
  | fileNotFoundError
  | permissionError
  | yamlError
deriving DecidableEq

/-- `open(config_path)` followed by `yaml.safe_load(f)`. -/
def openAndParse : ConfigSource → Except PyError RiskConfig
  | .missing => .error .fileNotFoundError
  | .unreadable => .error .permissionError
  | .malformed => .error .yamlError
  | .valid c => .ok c

/-- `RiskEngine._load_config`: a `try` around open-and-parse whose `except`
clause catches exactly `FileNotFoundError` and substitutes the defaults;
every other exception escapes to the caller. -/
def _load_config (src : ConfigSource) : Except PyError RiskConfig :=
  match openAndParse src with
  | .error .fileNotFoundError => .ok _get_default_config
  | r => r

/-- Details dict of `RiskEngine.score_domain_length`. -/
structure LengthDetails where
  length : ℕ
  score : ℚ
  reason : String
deriving DecidableEq

/-- `RiskEngine.score_domain_length`. -/
def score_domain_length (domain : String) : ℚ × LengthDetails :=
  let domain_name := leftLabel domain.toList
  let length := domain_name.length
  if length < 5 then
    (0.8, ⟨length, 0.8, ("Domain name very short (") ++ toString length ++ (" chars)")⟩)
  else if length > 30 then
    (0.7, ⟨length, 0.7, ("Domain name very long (") ++ toString length ++ (" chars)")⟩)
  else if length > 20 then
    (0.4, ⟨length, 0.4, ("Domain name long (") ++ toString length ++ (" chars)")⟩)
  else
    (0.1, ⟨length, 0.1, ("Domain name normal length (") ++ toString length ++ (" chars)")⟩)

/-- Details dict of `RiskEngine.score_tld`. -/
structure TldDetails where
  tld : String
  tld_risk : ℚ
  score : ℚ
  reason : String
deriving DecidableEq

/-- `RiskEngine.score_tld`. -/
def score_tld (cfg : RiskConfig) (domain : String) : ℚ × TldDetails :=
  let parts := pySplit '.' domain.toList
  let tld : String :=
    if parts.length < 2 then domain else String.mk ('.' :: parts.getLastD [])
  let tld_risk := (List.lookup (pyLower tld) cfg.tld_risk_scores).getD 0.5
  if tld_risk > 0.7 then
    (0.9, ⟨tld, tld_risk, 0.9, ("High-risk TLD: ") ++ tld⟩)
  else if tld_risk > 0.5 then
    (0.6, ⟨tld, tld_risk, 0.6, ("Medium-risk TLD: ") ++ tld⟩)
  else
    (0.2, ⟨tld, tld_risk, 0.2, ("Low-risk TLD: ") ++ tld⟩)

/-- Details dict of `RiskEngine.score_keywords` (the `matches` sub-dict is
flattened into the three lists). -/
structure KeywordDetails where
  suspicious : List String
  malware : List String
  phishing : List String
  total_matches : ℕ
  score : ℚ
  reason : String
deriving DecidableEq

/-- `RiskEngine.score_keywords`. -/
def score_keywords (cfg : RiskConfig) (domain : String) : ℚ × KeywordDetails :=
  let domain_lower := domain.toList.map Char.toLower
  let sus := cfg.suspicious_keywords.filter (fun k => strIn k.toList domain_lower)
  let mal := cfg.malware_keywords.filter (fun k => strIn k.toList domain_lower)
  let phi := cfg.phishing_keywords.filter (fun k => strIn k.toList domain_lower)
  let total_matches := sus.length + mal.length * 2 + phi.length * 3
  if total_matches ≥ 3 then
    (0.95, ⟨sus, mal, phi, total_matches, 0.95, ("Multiple suspicious keywords detected")⟩)
  else if total_matches ≥ 2 then
    (0.75, ⟨sus, mal, phi, total_matches, 0.75, ("Suspicious keywords detected")⟩)
  else if total_matches ≥ 1 then
    (0.5, ⟨sus, mal, phi, total_matches, 0.5, ("Keyword match detected")⟩)
  else
    (0.1, ⟨sus, mal, phi, total_matches, 0.1, ("No suspicious keyword matches")⟩)

/-- Details dict of `RiskEngine.score_age`. -/
structure AgeDetails where
  age_days : Option ℤ
  score : ℚ
  reason : String
deriving DecidableEq

/-- `RiskEngine.score_age`; `created_date` and `now` are in seconds, and
`(now - created_date).days` is floor division of the elapsed seconds. -/
def score_age (created_date : Option ℤ) (now : ℤ) : ℚ × AgeDetails :=
  match created_date with
  | none => (0.5, ⟨none, 0.5, ("Domain age unknown")⟩)
  | some created =>
    let age_days : ℤ := Int.fdiv (now - created) 86400
    if age_days < 1 then
      (0.9, ⟨some age_days, 0.9, ("Domain very new (") ++ toString age_days ++ (" days)")⟩)
    else if age_days < 7 then
      (0.7, ⟨some age_days, 0.7, ("Domain new (") ++ toString age_days ++ (" days)")⟩)
    else if age_days < 30 then
      (0.4, ⟨some age_days, 0.4, ("Domain relatively new (") ++ toString age_days ++ (" days)")⟩)
    else
      (0.1, ⟨some age_days, 0.1, ("Domain established (") ++ toString age_days ++ (" days)")⟩)

/-- Details dict of `RiskEngine.score_ml_pattern` (the two-decimal float
rendering inside the reason string is abstracted away). -/
structure MlDetails where
  consonant_vowel_ratio : ℚ
  score : ℚ
  reason : String
deriving DecidableEq

/-- `RiskEngine.score_ml_pattern`: the consonant/(vowel+1) DGA heuristic. -/
def score_ml_pattern (domain : String) : ℚ × MlDetails :=
  let domain_name := leftLabel domain.toList
  let consonants : ℕ :=
    (domain_name.filter (fun c => (("bcdfghjklmnpqrstvwxyz").toList).contains c.toLower)).length
  let vowels : ℕ :=
    (domain_name.filter (fun c => (("aeiou").toList).contains c.toLower)).length
  let ratio : ℚ := (consonants : ℚ) / ((vowels : ℚ) + 1)
  if ratio > 3 then
    (0.8, ⟨ratio, 0.8, ("High consonant/vowel ratio, possible DGA")⟩)
  else if ratio > 2 then
    (0.5, ⟨ratio, 0.5, ("Moderate consonant/vowel ratio")⟩)
  else
    (0.2, ⟨ratio, 0.2, ("Normal consonant/vowel ratio")⟩)

/-- The character-distribution Shannon entropy loop shared by
`RiskEngine.calculate_entropy` and (via `scipy.stats.entropy(probs, base=2)`)
`RiskService._calculate_entropy_risk`: count frequencies of the lower-cased
characters, divide by the input length to get probabilities, and accumulate
`-p * log2(p)`. -/
noncomputable def shannonChars (chars : List Char) : ℝ :=
  let l := chars.map Char.toLower
  ((l.dedup).map (fun c =>
    -(((l.count c : ℝ) / (chars.length : ℝ)) *
      Real.logb 2 ((l.count c : ℝ) / (chars.length : ℝ))))).sum

/-- `RiskEngine.calculate_entropy`: `0.0` for the empty string, otherwise the
base-2 Shannon entropy of the lower-cased character distribution. -/
noncomputable def calculate_entropy (text : String) : ℝ :=
  if text.toList.isEmpty then 0 else shannonChars text.toList

/-- Specification-side quantity for entropy reasoning: the product of
`count ^ count` over the distinct lower-cased characters, so that
`length * shannonChars chars = logb 2 (length ^ length) - logb 2 (entD chars)`. -/
def entD (chars : List Char) : ℕ :=
  (((chars.map Char.toLower).dedup).map
    (fun c => ((chars.map Char.toLower).count c) ^ ((chars.map Char.toLower).count c))).prod

/-- Details dict of `RiskEngine.score_entropy` (the two-decimal float
rendering inside the reason string is abstracted away). -/
structure EntropyDetails where
  entropy : ℝ
  score : ℚ
  reason : String

/-- `RiskEngine.score_entropy`: classify the entropy of the leftmost label. -/
noncomputable def score_entropy (domain : String) : ℚ × EntropyDetails :=
  let domain_name := String.mk (leftLabel domain.toList)
  let entropy := calculate_entropy domain_name
  if entropy < 2 then
    (0.9, ⟨entropy, 0.9, ("Low entropy, predictable pattern")⟩)
  else if entropy > 4.5 then
    (0.8, ⟨entropy, 0.8, ("High entropy, random pattern")⟩)
  else if entropy > 4 then
    (0.3, ⟨entropy, 0.3, ("Moderate entropy")⟩)
  else
    (0.1, ⟨entropy, 0.1, ("Normal entropy")⟩)

/-- The result dict of `RiskEngine.calculate_overall_risk`: the
`component_scores` sub-dicts are flattened into `*_score` / `*_details`
field pairs, `recommendations` is `none` when the key is absent, and the
ISO timestamp is the integer clock value passed in for
`datetime.utcnow()`. -/
structure RiskResult where
  domain : String
  overall_score : ℚ
  risk_level : String
  length_score : ℚ
  length_details : LengthDetails
  entropy_score : ℚ
  entropy_details : EntropyDetails
  tld_score : ℚ
  tld_details : TldDetails
  keyword_score : ℚ
  keyword_details : KeywordDetails
  age_score : ℚ
  age_details : AgeDetails
  ml_pattern_score : Option (ℚ × MlDetails)
  weights : List (String × ℚ)
  timestamp : ℤ
  recommendations : Option (List String)

/-- `RiskEngine._generate_recommendations`, reading the (rounded) scores
from an assembled result dict. -/
def _generate_recommendations (risk_result : RiskResult) : List String :=
  (if risk_result.overall_score ≥ 0.8 then
    [("IMMEDIATE ACTION REQUIRED: Investigate this domain immediately"),
     ("Consider blocking this domain at network perimeter"),
     ("Submit to VirusTotal/AbuseIPDB for community analysis")]
   else if risk_result.overall_score ≥ 0.6 then
    [("HIGH RISK: Monitor this domain closely"),
     ("Consider adding to watchlist for further investigation"),
     ("Check for related domains and infrastructure")]
   else []) ++
  (if risk_result.keyword_score ≥ 0.7 then
    [("Suspicious keywords detected - verify legitimacy")] else []) ++
  (if risk_result.tld_score ≥ 0.7 then
    [("High-risk TLD detected: ") ++ risk_result.tld_details.tld] else []) ++
  (if risk_result.entropy_score ≥ 0.7 then
    [("Unusual character patterns detected - possible DGA")] else [])

/-- `RiskEngine.calculate_overall_risk` ("Mode A"): weighted aggregation of
the component scores, optional ML-pattern blend (taken whenever the pattern
score is truthy, i.e. nonzero), cap at 0.99, risk-level classification and
conditional recommendations. `now` stands for `datetime.utcnow()`. -/
noncomputable def calculate_overall_risk (cfg : RiskConfig) (domain : String)
    (created_date : Option ℤ) (now : ℤ) : RiskResult :=
  let length_pair := score_domain_length domain
  let entropy_pair := score_entropy domain
  let tld_pair := score_tld cfg domain
  let keyword_pair := score_keywords cfg domain
  let age_pair := score_age created_date now
  let ml_pair := score_ml_pattern domain
  let ml_score := ml_pair.1
  let base_scores : List ℚ :=
    [length_pair.1 * ((List.lookup ("domain_length") cfg.weights).getD 0.15),
     entropy_pair.1 * ((List.lookup ("entropy_score") cfg.weights).getD 0.25),
     tld_pair.1 * ((List.lookup ("tld_risk") cfg.weights).getD 0.20),
     keyword_pair.1 * ((List.lookup ("keyword_matches") cfg.weights).getD 0.30),
     age_pair.1 * ((List.lookup ("age_days") cfg.weights).getD 0.10)]
  let ml_weight : ℚ := 0.15
  let weighted_scores : List ℚ :=
    if ml_score ≠ 0 then
      (base_scores.map (fun score => score * (1 - ml_weight))) ++ [ml_score * ml_weight]
    else base_scores
  let overall_score := min 0.99 weighted_scores.sum
  let risk_level : String :=
    if overall_score ≥ 0.8 then ("CRITICAL")
    else if overall_score ≥ 0.6 then ("HIGH")
    else if overall_score ≥ 0.4 then ("MEDIUM")
    else if overall_score ≥ 0.2 then ("LOW")
    else ("VERY_LOW")
  let result : RiskResult :=
    { domain := domain
      overall_score := pyRound4 overall_score
      risk_level := risk_level
      length_score := pyRound4 length_pair.1
      length_details := length_pair.2
      entropy_score := pyRound4 entropy_pair.1
      entropy_details := entropy_pair.2
      tld_score := pyRound4 tld_pair.1
      tld_details := tld_pair.2
      keyword_score := pyRound4 keyword_pair.1
      keyword_details := keyword_pair.2
      age_score := pyRound4 age_pair.1
      age_details := age_pair.2
      ml_pattern_score := if ml_score ≠ 0 then some (pyRound4 ml_score, ml_pair.2) else none
      weights := cfg.weights
      timestamp := now
      recommendations := none }
  if overall_score ≥ 0.6 then
    { result with recommendations := some (_generate_recommendations result) }
  else result

/-- `RiskEngine.batch_score_domains`: ordered single-domain scoring per
input. Python indexes `created_dates[i]` when the list is truthy (raising
out of range when it is shorter than `domains`; the totalized `getD` path
is only relied upon under the matching-length hypothesis). -/
noncomputable def batch_score_domains (cfg : RiskConfig) (domains : List String)
    (created_dates : Option (List (Option ℤ))) (now : ℤ) : List RiskResult :=
  domains.enum.map (fun p =>
    let created_date :=
      match created_dates with
      | none => none
      | some ds => if ds.isEmpty then none else (ds.get? p.1).getD none
    calculate_overall_risk cfg p.2 created_date now)

/-- The fixed configuration dict returned by `RiskService._load_risk_config`
(the `weights` sub-dict is flattened into `w_*` fields). -/
structure ServiceConfig where
  w_domain_length : ℚ
  w_entropy_score : ℚ
  w_tld_risk : ℚ
  w_keyword_matches : ℚ
  w_age_days : ℚ
  high_risk_keywords : List String
  suspicious_tlds : List String
  max_domain_length : ℕ
  min_entropy_threshold : ℚ

/-- `RiskService._load_risk_config`. -/
def _load_risk_config : ServiceConfig where
  w_domain_length := 0.15
  w_entropy_score := 0.25
  w_tld_risk := 0.20
  w_keyword_matches := 0.30
  w_age_days := 0.10
  high_risk_keywords :=
    ["paypal", "bank", "login", "secure", "account",
     "verify", "confirm", "update", "password", "signin"]
  suspicious_tlds := [(".tk"), (".ml"), (".ga"), (".cf"), (".xyz")]
  max_domain_length := 30
  min_entropy_threshold := 3.0

/-- `RiskService._get_tld`: `'.' + parts[-1]` when a dot is present,
otherwise the empty string. -/
def _get_tld (domain_name : String) : String :=
  let parts := pySplit '.' domain_name.toList
  if parts.length > 1 then String.mk ('.' :: parts.getLastD []) else ("")

/-- `RiskService._calculate_length_risk`. -/
def _calculate_length_risk (svc : ServiceConfig) (domain_length : ℕ) : ℚ :=
  if domain_length > svc.max_domain_length then 1.0
  else if domain_length < 3 then 0.8
  else if domain_length < 6 then 0.6
  else if domain_length > 20 then 0.7
  else 0.2

/-- `RiskService._calculate_tld_risk`. -/
def _calculate_tld_risk (svc : ServiceConfig) (domain_name : String) : ℚ :=
  let tld := pyLower (_get_tld domain_name)
  if (svc.suspicious_tlds.map pyLower).contains tld then 0.9
  else if ([(".com"), (".net"), (".org"), (".edu"), (".gov")] : List String).contains tld then 0.1
  else 0.4

/-- `RiskService._calculate_keyword_risk`. -/
def _calculate_keyword_risk (svc : ServiceConfig) (domain_name : String) : ℚ :=
  let domain_lower := domain_name.toList.map Char.toLower
  let matching_keywords := svc.high_risk_keywords.filter (fun k => strIn k.toList domain_lower)
  if matching_keywords.length = 0 then 0.1
  else if matching_keywords.length = 1 then 0.5
  else if matching_keywords.length ≤ 3 then 0.7
  else 0.9

/-- `RiskService._find_matching_keywords`. -/
def _find_matching_keywords (svc : ServiceConfig) (domain_name : String) : List String :=
  let domain_lower := domain_name.toList.map Char.toLower
  svc.high_risk_keywords.filter (fun k => strIn k.toList domain_lower)

/-- `RiskService._calculate_entropy_risk`: entropy of everything before the
last dot (`domain_name[:domain_name.rfind('.')]`, the whole string when no
dot is present), normalized against 4.7 bits, dampened by 0.3 below the
configured threshold. -/
noncomputable def _calculate_entropy_risk (svc : ServiceConfig) (domain_name : String) : ℝ :=
  let l := domain_name.toList
  let domain_part := if '.' ∈ l then ((l.reverse.dropWhile (fun c => c != '.')).drop 1).reverse else l
  if domain_part.length = 0 then 0
  else
    let ent := shannonChars domain_part
    let normalized_entropy := min 1 (ent / 4.7)
    if normalized_entropy > (svc.min_entropy_threshold : ℝ) / 4.7 then normalized_entropy
    else normalized_entropy * 0.3

/-- `RiskService._calculate_risk_score` ("Mode B"): weighted sum of the five
component risks over the full domain name, times 100, clamped to [0, 100].
The accompanying `risk_factors` breakdown dict (which only echoes componen
scores, weights and raw values) is not modelled; no claim depends on it. -/
noncomputable def _calculate_risk_score (svc : ServiceConfig) (domain_name : String) : ℝ :=
  let domain_length := domain_name.toList.length
  let length_score := _calculate_length_risk svc domain_length
  let entropy_score := _calculate_entropy_risk svc domain_name
  let tld_risk := _calculate_tld_risk svc domain_name
  let keyword_score := _calculate_keyword_risk svc domain_name
  let age_score : ℚ := 0.5
  let weighted_score : ℝ :=
    (length_score : ℝ) * (svc.w_domain_length : ℝ)
    + entropy_score * (svc.w_entropy_score : ℝ)
    + (tld_risk : ℝ) * (svc.w_tld_risk : ℝ)
    + (keyword_score : ℝ) * (svc.w_keyword_matches : ℝ)
    + (age_score : ℝ) * (svc.w_age_days : ℝ)
  min 100.0 (max 0.0 (weighted_score * 100))

/-- `RiskService._get_risk_level`: the four-tier lowercase labels of the
percentage-scale engine. -/
noncomputable def _get_risk_level (risk_score : ℝ) : String :=
  if risk_score < 20 then ("low")
  else if risk_score < 40 then ("medium")
  else if risk_score < 60 then ("high")
  else ("critical")
/-- Specification-side abbreviation: the weighted sum of the five base
component scores, with the per-factor `weights.get(key, default)` fallbacks
of `calculate_overall_risk`. -/
noncomputable def baseWeightedSum (cfg : RiskConfig) (domain : String)
    (created_date : Option ℤ) (now : ℤ) : ℚ :=
  (score_domain_length domain).1 * ((List.lookup ("domain_length") cfg.weights).getD 0.15)
  + (score_entropy domain).1 * ((List.lookup ("entropy_score") cfg.weights).getD 0.25)
  + (score_tld cfg domain).1 * ((List.lookup ("tld_risk") cfg.weights).getD 0.20)
  + (score_keywords cfg domain).1 * ((List.lookup ("keyword_matches") cfg.weights).getD 0.30)
  + (score_age created_date now).1 * ((List.lookup ("age_days") cfg.weights).getD 0.10)

/-- Specification-side abbreviation: the pre-rounding overall score of
`calculate_overall_risk` — base sum rescaled by `1 - 0.15`, ML pattern term
added, capped at 0.99. -/
noncomputable def overallRaw (cfg : RiskConfig) (domain : String)
    (created_date : Option ℤ) (now : ℤ) : ℚ :=
  min 0.99 (baseWeightedSum cfg domain created_date now * (1 - 0.15)
    + (score_ml_pattern domain).1 * 0.15)

section SplitLemmas

theorem pySplit_ne_nil (sep : Char) (l : List Char) : pySplit sep l ≠ [] := by
  induction l with
  | nil => simp [pySplit]
  | cons c cs ih =>
    simp only [pySplit]
    cases hr : pySplit sep cs with
    | nil => simp
    | cons hd tl => by_cases hc : c = sep <;> simp [hc]

theorem pySplit_of_not_mem {sep : Char} {l : List Char} (h : sep ∉ l) :
    pySplit sep l = [l] := by
  induction l with
  | nil => simp [pySplit]
  | cons c cs ih =>
    have hc : ¬ c = sep := fun hcs => h (hcs ▸ List.mem_cons_self c cs)
    have hcs : sep ∉ cs := fun hm => h (List.mem_cons_of_mem c hm)
    simp [pySplit, ih hcs, hc]

theorem pySplit_two_le_length {sep : Char} {l : List Char} (h : sep ∈ l) :
    2 ≤ (pySplit sep l).length := by
  induction l with
  | nil => cases h
  | cons c cs ih =>
    simp only [pySplit]
    cases hr : pySplit sep cs with
    | nil => exact absurd hr (pySplit_ne_nil sep cs)
    | cons hd tl =>
      by_cases hc : c = sep
      · simp [hc]
      · have hm : sep ∈ cs := by
          rcases List.mem_cons.mp h with h1 | h1
          · exact absurd h1.symm hc
          · exact h1
        have h2 := ih hm
        rw [hr] at h2
        simp only [List.length_cons] at h2 ⊢
        simp only [hc, if_false, List.length_cons]
        omega

theorem pySplit_headD_eq_takeWhile (sep : Char) (l : List Char) :
    (pySplit sep l).headD [] = l.takeWhile (fun c => c != sep) := by
  induction l with
  | nil => simp [pySplit]
  | cons c cs ih =>
    simp only [pySplit]
    cases hr : pySplit sep cs with
    | nil => exact absurd hr (pySplit_ne_nil sep cs)
    | cons hd tl =>
      by_cases hc : c = sep
      · subst hc
        simp [List.takeWhile]
      · rw [hr] at ih
        simp only [List.headD_cons] at ih
        have hb : (c != sep) = true := bne_iff_ne.mpr hc
        simp [List.takeWhile, hc, hb, ih]

theorem leftLabel_eq_takeWhile (l : List Char) :
    leftLabel l = l.takeWhile (fun c => c != '.') := by
  unfold leftLabel
  by_cases h : '.' ∈ l
  · rw [if_pos h, pySplit_headD_eq_takeWhile]
  · rw [if_neg h]
    have hall : ∀ c ∈ l, (c != '.') = true := by
      intro c hc
      exact bne_iff_ne.mpr (fun he => h (he ▸ hc))
    exact (List.takeWhile_eq_self_iff.mpr hall).symm

theorem getLastD_ne_nil {α : Type} {t : List α} (ht : t ≠ []) (a b : α) :
    t.getLastD a = t.getLastD b := by
  cases t with
  | nil => exact absurd rfl ht
  | cons x xs => rw [List.getLastD_cons, List.getLastD_cons]

theorem pySplit_getLastD_cons_of_mem {sep : Char} {cs : List Char} (c : Char)
    (h : sep ∈ cs) :
    (pySplit sep (c :: cs)).getLastD [] = (pySplit sep cs).getLastD [] := by
  simp only [pySplit]
  cases hr : pySplit sep cs with
  | nil => exact absurd hr (pySplit_ne_nil sep cs)
  | cons hd tl =>
    have h2 : 2 ≤ (pySplit sep cs).length := pySplit_two_le_length h
    rw [hr] at h2
    have htl : tl ≠ [] := by
      cases tl with
      | nil => simp at h2
      | cons x xs => simp
    show (if c = sep then [] :: hd :: tl else (c :: hd) :: tl).getLastD [] =
      (hd :: tl).getLastD []
    by_cases hc : c = sep
    · rw [if_pos hc, List.getLastD_cons]
    · rw [if_neg hc, List.getLastD_cons, List.getLastD_cons]
      exact getLastD_ne_nil htl _ _

theorem pySplit_getLastD_decomp {sep : Char} {l : List Char} (h : sep ∈ l) :
    (∃ pre, l = pre ++ sep :: (pySplit sep l).getLastD []) ∧
      sep ∉ (pySplit sep l).getLastD [] := by
  induction l with
  | nil => cases h
  | cons c cs ih =>
    by_cases hm : sep ∈ cs
    · obtain ⟨⟨pre, hpre⟩, hnm⟩ := ih hm
      rw [pySplit_getLastD_cons_of_mem c hm]
      exact ⟨⟨c :: pre, by rw [List.cons_append, ← hpre]⟩, hnm⟩
    · have hc : c = sep := by
        rcases List.mem_cons.mp h with h1 | h1
        · exact h1.symm
        · exact absurd h1 hm
      subst hc
      simp only [pySplit, pySplit_of_not_mem hm]
      constructor
      · exact ⟨[], by simp [List.getLastD_cons]⟩
      · simp [List.getLastD_cons, hm]

theorem pySplit_length_lt_two_iff (sep : Char) (l : List Char) :
    (pySplit sep l).length < 2 ↔ sep ∉ l := by
  constructor
  · intro hlt hm
    exact absurd (pySplit_two_le_length hm) (by omega)
  · intro hnm
    rw [pySplit_of_not_mem hnm]
    simp

end SplitLemmas

section RoundLemmas

theorem roundHalfEven_intCast (n : ℤ) : roundHalfEven (n : ℚ) = n := by
  unfold roundHalfEven
  rw [Int.floor_intCast]
  norm_num

theorem floor_le_roundHalfEven (q : ℚ) : ⌊q⌋ ≤ roundHalfEven q := by
  unfold roundHalfEven
  split_ifs <;> omega

theorem roundHalfEven_le_ceil (q : ℚ) : roundHalfEven q ≤ ⌈q⌉ := by
  unfold roundHalfEven
  have hfc := Int.floor_le_ceil q
  have hq : (⌊q⌋ : ℚ) ≤ q := Int.floor_le q
  split_ifs with h1 h2 h3
  · exact hfc
  · have hlt : (⌊q⌋ : ℚ) < q := by linarith
    have := Int.lt_ceil.mpr hlt
    omega
  · exact hfc
  · have hq2 : q - ⌊q⌋ = 1/2 := le_antisymm (not_lt.mp h2) (not_lt.mp h1)
    have hlt : (⌊q⌋ : ℚ) < q := by linarith
    have := Int.lt_ceil.mpr hlt
    omega

theorem pyRound4_nonneg {q : ℚ} (h : 0 ≤ q) : 0 ≤ pyRound4 q := by
  unfold pyRound4
  have h1 : (0 : ℤ) ≤ ⌊q * 10000⌋ := Int.floor_nonneg.mpr (by positivity)
  have h2 := floor_le_roundHalfEven (q * 10000)
  have h3 : (0 : ℚ) ≤ (roundHalfEven (q * 10000) : ℚ) := by exact_mod_cast le_trans h1 h2
  positivity

theorem pyRound4_le_cap {q : ℚ} (h : q ≤ 0.99) : pyRound4 q ≤ 0.99 := by
  unfold pyRound4
  have h1 : ⌈q * 10000⌉ ≤ 9900 := Int.ceil_le.mpr (by norm_num; linarith)
  have h2 := roundHalfEven_le_ceil (q * 10000)
  have h3 : (roundHalfEven (q * 10000) : ℚ) ≤ 9900 := by exact_mod_cast le_trans h2 h1
  rw [div_le_iff₀ (by norm_num : (0:ℚ) < 10000)]
  norm_num at h3 ⊢
  linarith

theorem pyRound4_of_mul_eq (q : ℚ) (n : ℤ) (h : q * 10000 = (n : ℚ)) : pyRound4 q = q := by
  unfold pyRound4
  rw [h, roundHalfEven_intCast]
  have hq : q = (n : ℚ) / 10000 := by
    field_simp at h ⊢
    linarith
  linarith

end RoundLemmas

section KeywordMonotone

theorem headMatch_append {n h : List Char} (k : List Char)
    (hm : headMatch n h = true) : headMatch n (h ++ k) = true := by
  induction n generalizing h with
  | nil => simp [headMatch]
  | cons a as ih =>
    cases h with
    | nil => simp [headMatch] at hm
    | cons b bs =>
      simp only [headMatch, Bool.and_eq_true] at hm ⊢
      exact ⟨hm.1, ih hm.2⟩

theorem strIn_nil_left (k : List Char) : strIn [] k = true := by
  cases k with
  | nil => rfl
  | cons b bs => simp [strIn, headMatch]

theorem strIn_append {n h : List Char} (k : List Char)
    (hm : strIn n h = true) : strIn n (h ++ k) = true := by
  induction h with
  | nil =>
    cases n with
    | nil => simpa using strIn_nil_left k
    | cons a as => simp [strIn, headMatch] at hm
  | cons b bs ih =>
    simp only [strIn, Bool.or_eq_true] at hm
    rcases hm with hm | hm
    · simp only [List.cons_append, strIn, Bool.or_eq_true]
      exact Or.inl (headMatch_append k hm)
    · simp only [List.cons_append, strIn, Bool.or_eq_true]
      exact Or.inr (ih hm)

theorem filter_strIn_length_mono (kws : List String) (dl ext : List Char) :
    (kws.filter (fun k => strIn k.toList dl)).length ≤
      (kws.filter (fun k => strIn k.toList (dl ++ ext))).length := by
  rw [← List.countP_eq_length_filter, ← List.countP_eq_length_filter]
  exact List.countP_mono_left (fun x _ hx => strIn_append ext hx)

end KeywordMonotone

section ScoreMemberships

theorem score_domain_length_fst_mem (d : String) :
    (score_domain_length d).1 ∈ ([0.8, 0.7, 0.4, 0.1] : List ℚ) := by
  simp only [score_domain_length]
  split_ifs <;> simp

theorem score_tld_fst_mem (cfg : RiskConfig) (d : String) :
    (score_tld cfg d).1 ∈ ([0.9, 0.6, 0.2] : List ℚ) := by
  simp only [score_tld]
  split_ifs <;> simp

theorem score_keywords_fst_mem (cfg : RiskConfig) (d : String) :
    (score_keywords cfg d).1 ∈ ([0.95, 0.75, 0.5, 0.1] : List ℚ) := by
  simp only [score_keywords]
  split_ifs <;> simp

theorem score_age_fst_mem (cd : Option ℤ) (now : ℤ) :
    (score_age cd now).1 ∈ ([0.5, 0.9, 0.7, 0.4, 0.1] : List ℚ) := by
  rcases cd with _ | created
  · simp [score_age]
  · simp only [score_age]
    split_ifs <;> simp

theorem score_ml_pattern_fst_mem (d : String) :
    (score_ml_pattern d).1 ∈ ([0.8, 0.5, 0.2] : List ℚ) := by
  simp only [score_ml_pattern]
  split_ifs <;> simp

theorem score_entropy_fst_mem (d : String) :
    (score_entropy d).1 ∈ ([0.9, 0.8, 0.3, 0.1] : List ℚ) := by
  simp only [score_entropy]
  split_ifs <;> simp

theorem mem_list_bounds {q : ℚ} {xs : List ℚ}
    (h : q ∈ xs) (hall : ∀ x ∈ xs, 0 ≤ x ∧ x ≤ 1) : 0 ≤ q ∧ q ≤ 1 :=
  hall q h

theorem score_ml_pattern_fst_pos (d : String) : (0.2 : ℚ) ≤ (score_ml_pattern d).1 := by
  have h := score_ml_pattern_fst_mem d
  simp only [List.mem_cons, List.not_mem_nil, or_false] at h
  rcases h with h | h | h <;> rw [h] <;> norm_num

theorem score_ml_pattern_fst_ne_zero (d : String) : (score_ml_pattern d).1 ≠ 0 := by
  have := score_ml_pattern_fst_pos d
  intro h
  rw [h] at this
  norm_num at this

end ScoreMemberships

section EntropyTheory

theorem list_sum_map_mul_left {α : Type} (a : ℝ) (f : α → ℝ) (l : List α) :
    (l.map (fun x => a * f x)).sum = a * (l.map f).sum := by
  induction l with
  | nil => simp
  | cons x xs ih => simp [ih, mul_add]

theorem list_sum_map_mul_right {α : Type} (a : ℝ) (f : α → ℝ) (l : List α) :
    (l.map (fun x => f x * a)).sum = (l.map f).sum * a := by
  induction l with
  | nil => simp
  | cons x xs ih => simp [ih, add_mul]

theorem list_sum_map_sub {α : Type} (f g : α → ℝ) (l : List α) :
    (l.map (fun x => f x - g x)).sum = (l.map f).sum - (l.map g).sum := by
  induction l with
  | nil => simp
  | cons x xs ih =>
    simp only [List.map_cons, List.sum_cons, ih]
    ring

theorem entD_pos (chars : List Char) : 0 < entD chars := by
  unfold entD
  apply List.prod_pos
  intro a ha
  simp only [List.mem_map] at ha
  obtain ⟨c, hc, rfl⟩ := ha
  have : 0 < (chars.map Char.toLower).count c :=
    List.count_pos_iff.mpr (List.mem_dedup.mp hc)
  positivity

theorem logb_list_prod_pow (ds : List Char) (f : Char → ℕ) (hf : ∀ c ∈ ds, 0 < f c) :
    Real.logb 2 (((ds.map (fun c => (f c) ^ (f c))).prod : ℕ) : ℝ)
      = (ds.map (fun c => (f c : ℝ) * Real.logb 2 (f c))).sum := by
  induction ds with
  | nil => simp
  | cons c cs ih =>
    have hc : 0 < f c := hf c (List.mem_cons_self c cs)
    have hcs : ∀ x ∈ cs, 0 < f x := fun x hx => hf x (List.mem_cons_of_mem c hx)
    have hprodpos : 0 < (cs.map (fun c => (f c) ^ (f c))).prod := by
      apply List.prod_pos
      intro a ha
      simp only [List.mem_map] at ha
      obtain ⟨x, hx, rfl⟩ := ha
      exact pow_pos (hcs x hx) _
    have hne1 : ((f c : ℝ) ^ (f c)) ≠ 0 := by
      have : (0:ℝ) < (f c : ℝ) ^ (f c) := by positivity
      exact ne_of_gt this
    have hne2 : (((cs.map (fun c => (f c) ^ (f c))).prod : ℕ) : ℝ) ≠ 0 := by
      exact_mod_cast ne_of_gt hprodpos
    have hcast : (((f c ^ f c) * (cs.map (fun c => (f c) ^ (f c))).prod : ℕ) : ℝ)
        = ((f c : ℝ) ^ (f c)) * (((cs.map (fun c => (f c) ^ (f c))).prod : ℕ) : ℝ) := by
      push_cast
      ring
    simp only [List.map_cons, List.prod_cons, List.sum_cons]
    rw [hcast, Real.logb_mul hne1 hne2, Real.logb_pow, ih hcs]

theorem shannonChars_mul_length (chars : List Char) (h : chars ≠ []) :
    (chars.length : ℝ) * shannonChars chars
      = Real.logb 2 ((chars.length : ℝ) ^ chars.length)
        - Real.logb 2 ((entD chars : ℕ) : ℝ) := by
  have hn : 0 < chars.length := List.length_pos.mpr h
  have hnR : (0:ℝ) < (chars.length : ℝ) := by exact_mod_cast hn
  have hlen : (chars.map Char.toLower).length = chars.length := List.length_map _ _
  have hcpos : ∀ c ∈ (chars.map Char.toLower).dedup,
      0 < (chars.map Char.toLower).count c :=
    fun c hc => List.count_pos_iff.mpr (List.mem_dedup.mp hc)
  simp only [shannonChars]
  have hmap : (chars.map Char.toLower).dedup.map
      (fun c => -(((chars.map Char.toLower).count c : ℝ) / (chars.length : ℝ) *
        Real.logb 2 (((chars.map Char.toLower).count c : ℝ) / (chars.length : ℝ))))
      = (chars.map Char.toLower).dedup.map
        (fun c => (1 / (chars.length : ℝ)) *
          (((chars.map Char.toLower).count c : ℝ) * Real.logb 2 (chars.length : ℝ)
            - ((chars.map Char.toLower).count c : ℝ) *
              Real.logb 2 ((chars.map Char.toLower).count c : ℝ))) := by
    apply List.map_congr_left
    intro c hc
    have hcp : (0:ℝ) < ((chars.map Char.toLower).count c : ℝ) := by
      exact_mod_cast hcpos c hc
    rw [Real.logb_div (ne_of_gt hcp) (ne_of_gt hnR)]
    field_simp
    ring
  rw [hmap, list_sum_map_mul_left, list_sum_map_sub, list_sum_map_mul_right]
  have hsum : ((chars.map Char.toLower).dedup.map
      (fun c => ((chars.map Char.toLower).count c : ℝ))).sum = (chars.length : ℝ) := by
    have h1 : ((((chars.map Char.toLower).dedup.map
          (fun c => (chars.map Char.toLower).count c)).sum : ℕ) : ℝ)
        = (((chars.map Char.toLower).dedup.map
          (fun c => (chars.map Char.toLower).count c)).map (fun n : ℕ => (n : ℝ))).sum :=
      Nat.cast_list_sum _
    rw [List.map_map] at h1
    simp only [Function.comp_def] at h1
    rw [← h1, List.sum_map_count_dedup_eq_length, hlen]
  have hD := logb_list_prod_pow ((chars.map Char.toLower).dedup)
    (fun c => (chars.map Char.toLower).count c) hcpos
  unfold entD
  rw [← hD, hsum, Real.logb_pow]
  field_simp

theorem shannon_nsmul_le (chars : List Char) (h : chars ≠ []) (b : ℕ)
    (hb : chars.length ^ chars.length ≤ entD chars * 2 ^ b) :
    (chars.length : ℝ) * shannonChars chars ≤ (b : ℝ) := by
  rw [shannonChars_mul_length chars h]
  have hn : 0 < chars.length := List.length_pos.mpr h
  have hD : 0 < entD chars := entD_pos chars
  have hnn : (0:ℝ) < (chars.length : ℝ) ^ chars.length := by positivity
  have hcast : ((chars.length : ℝ) ^ chars.length : ℝ)
      ≤ (entD chars : ℝ) * 2 ^ b := by
    calc ((chars.length : ℝ) ^ chars.length : ℝ)
        = ((chars.length ^ chars.length : ℕ) : ℝ) := by push_cast; ring
      _ ≤ ((entD chars * 2 ^ b : ℕ) : ℝ) := by exact_mod_cast hb
      _ = (entD chars : ℝ) * 2 ^ b := by push_cast; ring
  have h1 : Real.logb 2 ((chars.length : ℝ) ^ chars.length)
      ≤ Real.logb 2 ((entD chars : ℝ) * 2 ^ b) :=
    Real.logb_le_logb_of_le one_lt_two hnn hcast
  have h2 : Real.logb 2 ((entD chars : ℝ) * 2 ^ b)
      = Real.logb 2 ((entD chars : ℝ)) + (b : ℝ) := by
    rw [Real.logb_mul (by exact_mod_cast ne_of_gt hD) (by positivity),
      Real.logb_pow, Real.logb_self_eq_one one_lt_two]
    ring
  rw [h2] at h1
  linarith

theorem shannon_nsmul_ge (chars : List Char) (h : chars ≠ []) (a : ℕ)
    (ha : entD chars * 2 ^ a ≤ chars.length ^ chars.length) :
    (a : ℝ) ≤ (chars.length : ℝ) * shannonChars chars := by
  rw [shannonChars_mul_length chars h]
  have hn : 0 < chars.length := List.length_pos.mpr h
  have hD : 0 < entD chars := entD_pos chars
  have hDpos : (0:ℝ) < ((entD chars : ℕ) : ℝ) := by exact_mod_cast hD
  have hcast : (entD chars : ℝ) * 2 ^ a ≤ ((chars.length : ℝ) ^ chars.length : ℝ) := by
    calc (entD chars : ℝ) * 2 ^ a
        = ((entD chars * 2 ^ a : ℕ) : ℝ) := by push_cast; ring
      _ ≤ ((chars.length ^ chars.length : ℕ) : ℝ) := by exact_mod_cast ha
      _ = ((chars.length : ℝ) ^ chars.length : ℝ) := by push_cast; ring
  have hmulpos : (0:ℝ) < (entD chars : ℝ) * 2 ^ a := by positivity
  have h1 : Real.logb 2 ((entD chars : ℝ) * 2 ^ a)
      ≤ Real.logb 2 ((chars.length : ℝ) ^ chars.length) :=
    Real.logb_le_logb_of_le one_lt_two hmulpos hcast
  have h2 : Real.logb 2 ((entD chars : ℝ) * 2 ^ a)
      = Real.logb 2 ((entD chars : ℝ)) + (a : ℝ) := by
    rw [Real.logb_mul (ne_of_gt hDpos) (by positivity),
      Real.logb_pow, Real.logb_self_eq_one one_lt_two]
    ring
  rw [h2] at h1
  linarith

theorem shannonChars_nonneg (chars : List Char) : 0 ≤ shannonChars chars := by
  unfold shannonChars
  apply List.sum_nonneg
  intro x hx
  simp only [List.mem_map] at hx
  obtain ⟨c, hc, rfl⟩ := hx
  rcases eq_or_ne chars [] with rfl | hne
  · simp at hc
  · have hn : 0 < chars.length := List.length_pos.mpr hne
    have hnR : (0:ℝ) < (chars.length : ℝ) := by exact_mod_cast hn
    have hcnt : 0 < (chars.map Char.toLower).count c :=
      List.count_pos_iff.mpr (List.mem_dedup.mp hc)
    have hle : (chars.map Char.toLower).count c ≤ chars.length := by
      have := List.count_le_length c (chars.map Char.toLower)
      rwa [List.length_map] at this
    have hp0 : (0:ℝ) < ((chars.map Char.toLower).count c : ℝ) / (chars.length : ℝ) := by
      have : (0:ℝ) < ((chars.map Char.toLower).count c : ℝ) := by exact_mod_cast hcnt
      positivity
    have hp1 : ((chars.map Char.toLower).count c : ℝ) / (chars.length : ℝ) ≤ 1 := by
      rw [div_le_one hnR]
      exact_mod_cast hle
    have hlb : Real.logb 2
        (((chars.map Char.toLower).count c : ℝ) / (chars.length : ℝ)) ≤ 0 :=
      Real.logb_nonpos one_lt_two hp0.le hp1
    nlinarith

theorem calculate_entropy_nonneg (s : String) : 0 ≤ calculate_entropy s := by
  unfold calculate_entropy
  split
  · exact le_refl 0
  · exact shannonChars_nonneg _

end EntropyTheory

section EntropyConcrete

theorem calculate_entropy_empty : calculate_entropy ("") = 0 := by
  unfold calculate_entropy
  rw [if_pos (by decide : (("") : String).toList.isEmpty = true)]

theorem calculate_entropy_eq_shannon {s : String} (h : s.toList.isEmpty = false) :
    calculate_entropy s = shannonChars s.toList := by
  unfold calculate_entropy
  rw [h]
  simp

theorem calculate_entropy_aaaa : calculate_entropy ("aaaa") = 0 := by
  have hne : (("aaaa") : String).toList ≠ [] := by decide
  have h := shannonChars_mul_length ((("aaaa") : String).toList) hne
  rw [(by decide : ((("aaaa") : String).toList).length = 4),
    (by decide : entD ((("aaaa") : String).toList) = 256)] at h
  push_cast at h
  rw [(by norm_num : ((4:ℝ)) ^ (4:ℕ) = 256), sub_self] at h
  rw [calculate_entropy_eq_shannon (by decide)]
  linarith

theorem calculate_entropy_abcd : 0 < calculate_entropy ("abcd") := by
  have hge := shannon_nsmul_ge ((("abcd") : String).toList) (by decide) 8 (by decide)
  rw [(by decide : ((("abcd") : String).toList).length = 4)] at hge
  push_cast at hge
  rw [calculate_entropy_eq_shannon (by decide)]
  linarith

theorem secure_label_entropy_bounds :
    2 ≤ shannonChars (("secure-paypal-login-verify").toList) ∧
      shannonChars (("secure-paypal-login-verify").toList) ≤ 4 := by
  have hne : (("secure-paypal-login-verify") : String).toList ≠ [] := by decide
  have hge := shannon_nsmul_ge ((("secure-paypal-login-verify") : String).toList) hne 52
    (by decide)
  have hle := shannon_nsmul_le ((("secure-paypal-login-verify") : String).toList) hne 104
    (by decide)
  rw [(by decide : ((("secure-paypal-login-verify") : String).toList).length = 26)]
    at hge hle
  push_cast at hge hle
  constructor <;> linarith

theorem score_entropy_secure_fst :
    (score_entropy ("secure-paypal-login-verify.xyz")).1 = 0.1 := by
  have hlab : leftLabel ((("secure-paypal-login-verify.xyz") : String).toList)
      = (("secure-paypal-login-verify") : String).toList := by decide
  obtain ⟨h2, h4⟩ := secure_label_entropy_bounds
  have hce : calculate_entropy (String.mk ((("secure-paypal-login-verify") : String).toList))
      = shannonChars ((("secure-paypal-login-verify") : String).toList) := by
    unfold calculate_entropy
    rw [(by decide : (String.mk ((("secure-paypal-login-verify") : String).toList)).toList.isEmpty = false)]
    have hdata : (String.mk ((("secure-paypal-login-verify") : String).toList)).toList
        = (("secure-paypal-login-verify") : String).toList := rfl
    rw [hdata]
    simp
  simp only [score_entropy, hlab, hce]
  rw [if_neg (not_lt.mpr h2),
    if_neg (not_lt.mpr (h4.trans (by norm_num))),
    if_neg (not_lt.mpr h4)]

end EntropyConcrete

section OverallStructure

theorem weighted_sum_shape (cfg : RiskConfig) (d : String) (cd : Option ℤ) (now : ℤ) :
    ((([(score_domain_length d).1 * ((List.lookup ("domain_length") cfg.weights).getD 0.15),
        (score_entropy d).1 * ((List.lookup ("entropy_score") cfg.weights).getD 0.25),
        (score_tld cfg d).1 * ((List.lookup ("tld_risk") cfg.weights).getD 0.20),
        (score_keywords cfg d).1 * ((List.lookup ("keyword_matches") cfg.weights).getD 0.30),
        (score_age cd now).1 * ((List.lookup ("age_days") cfg.weights).getD 0.10)]).map
          (fun score => score * (1 - 0.15))) ++ [(score_ml_pattern d).1 * 0.15]).sum
      = baseWeightedSum cfg d cd now * (1 - 0.15) + (score_ml_pattern d).1 * 0.15 := by
  simp only [List.map_cons, List.map_nil, List.sum_append, List.sum_cons, List.sum_nil]
  unfold baseWeightedSum
  ring

theorem overall_score_eq (cfg : RiskConfig) (d : String) (cd : Option ℤ) (now : ℤ) :
    (calculate_overall_risk cfg d cd now).overall_score
      = pyRound4 (overallRaw cfg d cd now) := by
  simp only [calculate_overall_risk]
  rw [apply_ite RiskResult.overall_score]
  simp only [ne_eq, score_ml_pattern_fst_ne_zero d, not_false_eq_true, if_true, ite_self]
  rw [weighted_sum_shape cfg d cd now]
  rfl

theorem risk_level_eq (cfg : RiskConfig) (d : String) (cd : Option ℤ) (now : ℤ) :
    (calculate_overall_risk cfg d cd now).risk_level
      = (if overallRaw cfg d cd now ≥ 0.8 then ("CRITICAL")
        else if overallRaw cfg d cd now ≥ 0.6 then ("HIGH")
        else if overallRaw cfg d cd now ≥ 0.4 then ("MEDIUM")
        else if overallRaw cfg d cd now ≥ 0.2 then ("LOW")
        else ("VERY_LOW")) := by
  simp only [calculate_overall_risk]
  rw [apply_ite RiskResult.risk_level]
  simp only [ne_eq, score_ml_pattern_fst_ne_zero d, not_false_eq_true, if_true, ite_self]
  rw [weighted_sum_shape cfg d cd now]
  rfl

theorem recommendations_none_of_low (cfg : RiskConfig) (d : String) (cd : Option ℤ)
    (now : ℤ) (h : overallRaw cfg d cd now < 0.6) :
    (calculate_overall_risk cfg d cd now).recommendations = none := by
  simp only [calculate_overall_risk]
  simp only [ne_eq, score_ml_pattern_fst_ne_zero d, not_false_eq_true, if_true]
  rw [weighted_sum_shape cfg d cd now]
  rw [show (min (0.99:ℚ) (baseWeightedSum cfg d cd now * (1 - 0.15)
    + (score_ml_pattern d).1 * 0.15)) = overallRaw cfg d cd now from rfl]
  rw [if_neg (not_le.mpr h)]

theorem recommendations_some_of_high (cfg : RiskConfig) (d : String) (cd : Option ℤ)
    (now : ℤ) (h : 0.6 ≤ overallRaw cfg d cd now) :
    (calculate_overall_risk cfg d cd now).recommendations ≠ none := by
  simp only [calculate_overall_risk]
  simp only [ne_eq, score_ml_pattern_fst_ne_zero d, not_false_eq_true, if_true]
  rw [weighted_sum_shape cfg d cd now]
  rw [show (min (0.99:ℚ) (baseWeightedSum cfg d cd now * (1 - 0.15)
    + (score_ml_pattern d).1 * 0.15)) = overallRaw cfg d cd now from rfl]
  rw [if_pos h]
  simp

theorem timestamp_eq (cfg : RiskConfig) (d : String) (cd : Option ℤ) (now : ℤ) :
    (calculate_overall_risk cfg d cd now).timestamp = now := by
  simp only [calculate_overall_risk]
  rw [apply_ite RiskResult.timestamp]
  simp

theorem domain_eq (cfg : RiskConfig) (d : String) (cd : Option ℤ) (now : ℤ) :
    (calculate_overall_risk cfg d cd now).domain = d := by
  simp only [calculate_overall_risk]
  rw [apply_ite RiskResult.domain]
  simp

end OverallStructure

section Nonnegativity

theorem score_domain_length_fst_nonneg (d : String) : 0 ≤ (score_domain_length d).1 := by
  have h := score_domain_length_fst_mem d
  simp only [List.mem_cons, List.not_mem_nil, or_false] at h
  rcases h with h | h | h | h <;> rw [h] <;> norm_num

theorem score_entropy_fst_nonneg (d : String) : 0 ≤ (score_entropy d).1 := by
  have h := score_entropy_fst_mem d
  simp only [List.mem_cons, List.not_mem_nil, or_false] at h
  rcases h with h | h | h | h <;> rw [h] <;> norm_num

theorem score_tld_fst_nonneg (cfg : RiskConfig) (d : String) : 0 ≤ (score_tld cfg d).1 := by
  have h := score_tld_fst_mem cfg d
  simp only [List.mem_cons, List.not_mem_nil, or_false] at h
  rcases h with h | h | h <;> rw [h] <;> norm_num

theorem score_keywords_fst_nonneg (cfg : RiskConfig) (d : String) :
    0 ≤ (score_keywords cfg d).1 := by
  have h := score_keywords_fst_mem cfg d
  simp only [List.mem_cons, List.not_mem_nil, or_false] at h
  rcases h with h | h | h | h <;> rw [h] <;> norm_num

theorem score_age_fst_nonneg (cd : Option ℤ) (now : ℤ) : 0 ≤ (score_age cd now).1 := by
  have h := score_age_fst_mem cd now
  simp only [List.mem_cons, List.not_mem_nil, or_false] at h
  rcases h with h | h | h | h | h <;> rw [h] <;> norm_num

theorem lookup_getD_nonneg {m : List (String × ℚ)} (hm : ∀ p ∈ m, 0 ≤ p.2)
    (k : String) (dflt : ℚ) (hd : 0 ≤ dflt) :
    0 ≤ (List.lookup k m).getD dflt := by
  cases hlk : List.lookup k m with
  | none => simpa using hd
  | some v =>
    obtain ⟨l₁, l₂, hdec, _⟩ := List.lookup_eq_some_iff.mp hlk
    have hmem : (k, v) ∈ m := by
      rw [hdec]
      simp
    simpa using hm (k, v) hmem

theorem baseWeightedSum_nonneg (cfg : RiskConfig) (d : String) (cd : Option ℤ) (now : ℤ)
    (hw : ∀ p ∈ cfg.weights, 0 ≤ p.2) :
    0 ≤ baseWeightedSum cfg d cd now := by
  unfold baseWeightedSum
  have h1 := mul_nonneg (score_domain_length_fst_nonneg d)
    (lookup_getD_nonneg hw ("domain_length") 0.15 (by norm_num))
  have h2 := mul_nonneg (score_entropy_fst_nonneg d)
    (lookup_getD_nonneg hw ("entropy_score") 0.25 (by norm_num))
  have h3 := mul_nonneg (score_tld_fst_nonneg cfg d)
    (lookup_getD_nonneg hw ("tld_risk") 0.20 (by norm_num))
  have h4 := mul_nonneg (score_keywords_fst_nonneg cfg d)
    (lookup_getD_nonneg hw ("keyword_matches") 0.30 (by norm_num))
  have h5 := mul_nonneg (score_age_fst_nonneg cd now)
    (lookup_getD_nonneg hw ("age_days") 0.10 (by norm_num))
  linarith

theorem overallRaw_nonneg (cfg : RiskConfig) (d : String) (cd : Option ℤ) (now : ℤ)
    (hw : ∀ p ∈ cfg.weights, 0 ≤ p.2) :
    0 ≤ overallRaw cfg d cd now := by
  unfold overallRaw
  have hb := baseWeightedSum_nonneg cfg d cd now hw
  have hml := score_ml_pattern_fst_pos d
  have : (0:ℚ) ≤ baseWeightedSum cfg d cd now * (1 - 0.15)
      + (score_ml_pattern d).1 * 0.15 := by nlinarith
  exact le_min (by norm_num) this

theorem overallRaw_le_cap (cfg : RiskConfig) (d : String) (cd : Option ℤ) (now : ℤ) :
    overallRaw cfg d cd now ≤ 0.99 := min_le_left _ _

end Nonnegativity

section SecurePaypalScenario

theorem secure_length_fst :
    (score_domain_length ("secure-paypal-login-verify.xyz")).1 = 0.4 := rfl

theorem secure_keywords_fst :
    (score_keywords _get_default_config ("secure-paypal-login-verify.xyz")).1 = 0.95 := rfl

theorem secure_tld_fst :
    (score_tld _get_default_config ("secure-paypal-login-verify.xyz")).1 = 0.9 := by
  simp only [score_tld]
  rw [show (if (pySplit '.' ((("secure-paypal-login-verify.xyz") : String).toList)).length < 2
      then ("secure-paypal-login-verify.xyz")
      else String.mk ('.' :: (pySplit '.' ((("secure-paypal-login-verify.xyz") : String).toList)).getLastD []))
      = (".xyz") from by decide]
  rw [show (List.lookup (pyLower (".xyz")) _get_default_config.tld_risk_scores).getD 0.5
      = (0.8 : ℚ) from rfl]
  rw [if_pos (by norm_num : (0.8 : ℚ) > 0.7)]

theorem secure_ml_fst :
    (score_ml_pattern ("secure-paypal-login-verify.xyz")).1 = 0.2 := by
  simp only [score_ml_pattern]
  rw [show ((leftLabel ((("secure-paypal-login-verify.xyz") : String).toList)).filter
      (fun c => (("bcdfghjklmnpqrstvwxyz").toList).contains c.toLower)).length = 14 from by decide]
  rw [show ((leftLabel ((("secure-paypal-login-verify.xyz") : String).toList)).filter
      (fun c => (("aeiou").toList).contains c.toLower)).length = 9 from by decide]
  rw [if_neg (by norm_num : ¬ ((14:ℕ) : ℚ) / (((9:ℕ) : ℚ) + 1) > 3),
    if_neg (by norm_num : ¬ ((14:ℕ) : ℚ) / (((9:ℕ) : ℚ) + 1) > 2)]

theorem six_hours_age_fst (now : ℤ) :
    (score_age (some (now - 21600)) now).1 = 0.9 := by
  simp only [score_age]
  rw [(by ring : now - (now - 21600) = 21600)]
  rw [if_pos (by decide : Int.fdiv 21600 86400 < 1)]

theorem overallRaw_secure (now : ℤ) :
    overallRaw _get_default_config ("secure-paypal-login-verify.xyz")
      (some (now - 21600)) now = 0.574 := by
  unfold overallRaw baseWeightedSum
  rw [secure_length_fst, score_entropy_secure_fst, secure_tld_fst, secure_keywords_fst,
    six_hours_age_fst now, secure_ml_fst]
  rw [show (List.lookup ("domain_length") _get_default_config.weights).getD 0.15
      = (0.15 : ℚ) from rfl,
    show (List.lookup ("entropy_score") _get_default_config.weights).getD 0.25
      = (0.25 : ℚ) from rfl,
    show (List.lookup ("tld_risk") _get_default_config.weights).getD 0.20
      = (0.20 : ℚ) from rfl,
    show (List.lookup ("keyword_matches") _get_default_config.weights).getD 0.30
      = (0.30 : ℚ) from rfl,
    show (List.lookup ("age_days") _get_default_config.weights).getD 0.10
      = (0.10 : ℚ) from rfl]
  rw [min_def]
  norm_num

end SecurePaypalScenario

section ServiceBounds

theorem _calculate_length_risk_mem (svc : ServiceConfig) (n : ℕ) :
    _calculate_length_risk svc n ∈ ([1.0, 0.8, 0.6, 0.7, 0.2] : List ℚ) := by
  unfold _calculate_length_risk
  split_ifs <;> simp

theorem _calculate_tld_risk_mem (svc : ServiceConfig) (d : String) :
    _calculate_tld_risk svc d ∈ ([0.9, 0.1, 0.4] : List ℚ) := by
  simp only [_calculate_tld_risk]
  split_ifs <;> simp

theorem _calculate_keyword_risk_mem (svc : ServiceConfig) (d : String) :
    _calculate_keyword_risk svc d ∈ ([0.1, 0.5, 0.7, 0.9] : List ℚ) := by
  simp only [_calculate_keyword_risk]
  split_ifs <;> simp

theorem _calculate_entropy_risk_bounds (svc : ServiceConfig) (d : String) :
    0 ≤ _calculate_entropy_risk svc d ∧ _calculate_entropy_risk svc d ≤ 1 := by
  simp only [_calculate_entropy_risk]
  set dp := (if '.' ∈ d.toList
    then ((d.toList.reverse.dropWhile (fun c => c != '.')).drop 1).reverse
    else d.toList) with hdp
  have hsh := shannonChars_nonneg dp
  have hnn : (0:ℝ) ≤ min 1 (shannonChars dp / 4.7) := le_min (by norm_num) (by positivity)
  have hle : min 1 (shannonChars dp / 4.7) ≤ 1 := min_le_left _ _
  split_ifs with h1 h2
  · norm_num
  · exact ⟨hnn, hle⟩
  · exact ⟨by nlinarith, by nlinarith⟩

theorem _calculate_risk_score_bounds (svc : ServiceConfig) (d : String) :
    0 ≤ _calculate_risk_score svc d ∧ _calculate_risk_score svc d ≤ 100 := by
  simp only [_calculate_risk_score]
  constructor
  · exact le_min (by norm_num) (le_trans (by norm_num) (le_max_left 0.0 _))
  · exact le_trans (min_le_left _ _) (by norm_num)

theorem _get_risk_level_mem (x : ℝ) :
    _get_risk_level x ∈ ([("low"), ("medium"), ("high"), ("critical")] : List String) := by
  unfold _get_risk_level
  split_ifs <;> simp

theorem risk_level_mem (cfg : RiskConfig) (d : String) (cd : Option ℤ) (now : ℤ) :
    (calculate_overall_risk cfg d cd now).risk_level
      ∈ ([("CRITICAL"), ("HIGH"), ("MEDIUM"), ("LOW"), ("VERY_LOW")] : List String) := by
  rw [risk_level_eq]
  split_ifs <;> simp

end ServiceBounds

section TldCharacterization

theorem score_tld_spec (cfg : RiskConfig) (d : String) :
    (('.' ∉ d.toList → (score_tld cfg d).2.tld = d) ∧
      ('.' ∈ d.toList → ∃ pre suf, d.toList = pre ++ '.' :: suf ∧ '.' ∉ suf ∧
        (score_tld cfg d).2.tld = String.mk ('.' :: suf))) ∧
    (score_tld cfg d).2.tld_risk
      = (List.lookup (pyLower (score_tld cfg d).2.tld) cfg.tld_risk_scores).getD 0.5 ∧
    (score_tld cfg d).1
      = (if (score_tld cfg d).2.tld_risk > 0.7 then (0.9:ℚ)
        else if (score_tld cfg d).2.tld_risk > 0.5 then 0.6 else 0.2) := by
  refine ⟨⟨?_, ?_⟩, ?_, ?_⟩
  · intro hnm
    have hlt : (pySplit '.' d.toList).length < 2 :=
      (pySplit_length_lt_two_iff '.' d.toList).mpr hnm
    simp only [score_tld, if_pos hlt]
    split_ifs <;> rfl
  · intro hm
    obtain ⟨⟨pre, hpre⟩, hnm⟩ := pySplit_getLastD_decomp hm
    refine ⟨pre, (pySplit '.' d.toList).getLastD [], hpre, hnm, ?_⟩
    have hlt : ¬ (pySplit '.' d.toList).length < 2 := by
      rw [pySplit_length_lt_two_iff]
      simpa using hm
    simp only [score_tld, if_neg hlt]
    split_ifs <;> rfl
  · simp only [score_tld]
    split_ifs <;> rfl
  · simp only [score_tld]
    split_ifs <;> rfl

end TldCharacterization

section EntropyCharacterization

theorem score_entropy_spec (d : String) :
    (score_entropy d).1 =
      (if calculate_entropy (String.mk (d.toList.takeWhile (fun c => c != '.'))) < 2
        then (0.9:ℚ)
      else if 4.5 < calculate_entropy (String.mk (d.toList.takeWhile (fun c => c != '.')))
        then 0.8
      else if 4 < calculate_entropy (String.mk (d.toList.takeWhile (fun c => c != '.')))
        then 0.3
      else 0.1) := by
  simp only [score_entropy, leftLabel_eq_takeWhile]
  split_ifs <;> rfl

end EntropyCharacterization

section MonotoneAndBatch

theorem score_keywords_append_mono (cfg : RiskConfig) (d k : String) :
    (score_keywords cfg d).1 ≤ (score_keywords cfg (d ++ k)).1 := by
  have hdl : (d ++ k).toList.map Char.toLower
      = d.toList.map Char.toLower ++ k.toList.map Char.toLower := by
    simp [String.toList]
  have h1 := filter_strIn_length_mono cfg.suspicious_keywords
    (d.toList.map Char.toLower) (k.toList.map Char.toLower)
  have h2 := filter_strIn_length_mono cfg.malware_keywords
    (d.toList.map Char.toLower) (k.toList.map Char.toLower)
  have h3 := filter_strIn_length_mono cfg.phishing_keywords
    (d.toList.map Char.toLower) (k.toList.map Char.toLower)
  simp only [score_keywords, hdl]
  split_ifs <;> first | (exfalso; omega) | norm_num

theorem batch_score_domains_length (cfg : RiskConfig) (ds : List String)
    (cds : Option (List (Option ℤ))) (now : ℤ) :
    (batch_score_domains cfg ds cds now).length = ds.length := by
  simp [batch_score_domains]

theorem batch_score_domains_get (cfg : RiskConfig) (ds : List String)
    (cds : Option (List (Option ℤ))) (now : ℤ) (i : ℕ) (hi : i < ds.length) :
    (batch_score_domains cfg ds cds now).get? i
      = some (calculate_overall_risk cfg (ds.get ⟨i, hi⟩)
          (cds.elim none (fun l => (l.get? i).getD none)) now) := by
  simp only [batch_score_domains]
  rw [List.get?_eq_getElem?]
  rw [List.getElem?_map]
  rw [List.getElem?_enum]
  rw [List.getElem?_eq_getElem hi]
  rcases cds with _ | l
  · simp [List.get_eq_getElem]
  · rcases l with _ | ⟨x, xs⟩ <;> simp

end MonotoneAndBatch

section FinalHelpers

theorem ml_pattern_score_eq (cfg : RiskConfig) (d : String) (cd : Option ℤ) (now : ℤ) :
    (calculate_overall_risk cfg d cd now).ml_pattern_score
      = some (pyRound4 (score_ml_pattern d).1, (score_ml_pattern d).2) := by
  simp only [calculate_overall_risk]
  rw [apply_ite RiskResult.ml_pattern_score]
  simp only [ne_eq, score_ml_pattern_fst_ne_zero d, not_false_eq_true, if_true, ite_self]

theorem _get_tld_spec (d : String) :
    ('.' ∉ d.toList → _get_tld d = ("")) ∧
      ('.' ∈ d.toList → ∃ pre suf, d.toList = pre ++ '.' :: suf ∧ '.' ∉ suf ∧
        _get_tld d = String.mk ('.' :: suf)) := by
  constructor
  · intro hnm
    simp only [_get_tld, pySplit_of_not_mem hnm]
    rw [if_neg (by norm_num)]
  · intro hm
    obtain ⟨⟨pre, hpre⟩, hnm⟩ := pySplit_getLastD_decomp hm
    refine ⟨pre, (pySplit '.' d.toList).getLastD [], hpre, hnm, ?_⟩
    have h2 := pySplit_two_le_length hm
    simp only [_get_tld]
    rw [if_pos (by omega)]

theorem score_tld_example_tld : (score_tld _get_default_config ("Example")).2.tld
    = ("Example") := by
  simp only [score_tld]
  rw [if_pos (by decide : (pySplit '.' ((("Example") : String).toList)).length < 2)]
  rw [show (List.lookup (pyLower ("Example")) _get_default_config.tld_risk_scores).getD 0.5
      = (0.5 : ℚ) from rfl]
  rw [if_neg (by norm_num : ¬ (0.5:ℚ) > 0.7), if_neg (by norm_num : ¬ (0.5:ℚ) > 0.5)]

end FinalHelpers

section Claims

/-- C1: Mode A scoring of the domain `secure-paypal-login-verify.xyz` with a
creation date six hours (21600 seconds) before now does NOT satisfy the
specification's Scenario 3 (and the repository's own
`test_calculate_overall_risk`): the code produces `overall_score = 0.574`
(< 0.7), `risk_level = "MEDIUM"` (not HIGH/CRITICAL) and no
`recommendations` key. This theorem evaluates the code at that failing
input. -/
theorem secure_paypal_six_hours_eval (now : ℤ) :
    (calculate_overall_risk _get_default_config ("secure-paypal-login-verify.xyz")
        (some (now - 21600)) now).overall_score = 0.574
    ∧ (calculate_overall_risk _get_default_config ("secure-paypal-login-verify.xyz")
        (some (now - 21600)) now).risk_level = ("MEDIUM")
    ∧ (calculate_overall_risk _get_default_config ("secure-paypal-login-verify.xyz")
        (some (now - 21600)) now).recommendations = none := by
  refine ⟨?_, ?_, ?_⟩
  · rw [overall_score_eq, overallRaw_secure now]
    exact pyRound4_of_mul_eq _ 5740 (by norm_num)
  · rw [risk_level_eq, overallRaw_secure now]
    rw [if_neg (by norm_num), if_neg (by norm_num), if_pos (by norm_num)]
  · exact recommendations_none_of_low _ _ _ _ (by rw [overallRaw_secure now]; norm_num)

/-- C2: for every domain string and every configuration whose weights are
non-negative, the Mode A `overall_score` lies in [0, 0.99] and the Mode B
`risk_score` lies in [0, 100]. -/
theorem overall_and_service_score_bounds (cfg : RiskConfig) (svc : ServiceConfig)
    (d : String) (cd : Option ℤ) (now : ℤ)
    (hw : ∀ p ∈ cfg.weights, 0 ≤ p.2)
    (_hsvc : 0 ≤ svc.w_domain_length ∧ 0 ≤ svc.w_entropy_score ∧ 0 ≤ svc.w_tld_risk
      ∧ 0 ≤ svc.w_keyword_matches ∧ 0 ≤ svc.w_age_days) :
    0 ≤ (calculate_overall_risk cfg d cd now).overall_score
    ∧ (calculate_overall_risk cfg d cd now).overall_score ≤ 0.99
    ∧ 0 ≤ _calculate_risk_score svc d
    ∧ _calculate_risk_score svc d ≤ 100 := by
  rw [overall_score_eq]
  exact ⟨pyRound4_nonneg (overallRaw_nonneg cfg d cd now hw),
    pyRound4_le_cap (overallRaw_le_cap cfg d cd now),
    (_calculate_risk_score_bounds svc d).1,
    (_calculate_risk_score_bounds svc d).2⟩

theorem overall_and_service_score_bounds_witness :
    (∀ p ∈ _get_default_config.weights, 0 ≤ p.2)
    ∧ (0 ≤ _load_risk_config.w_domain_length ∧ 0 ≤ _load_risk_config.w_entropy_score
      ∧ 0 ≤ _load_risk_config.w_tld_risk ∧ 0 ≤ _load_risk_config.w_keyword_matches
      ∧ 0 ≤ _load_risk_config.w_age_days)
    ∧ (0 ≤ (calculate_overall_risk _get_default_config ("example.com") none 0).overall_score
      ∧ (calculate_overall_risk _get_default_config ("example.com") none 0).overall_score ≤ 0.99
      ∧ 0 ≤ _calculate_risk_score _load_risk_config ("example.com")
      ∧ _calculate_risk_score _load_risk_config ("example.com") ≤ 100) := by
  have hw : ∀ p ∈ _get_default_config.weights, 0 ≤ p.2 := by
    intro p hp
    simp only [_get_default_config, List.mem_cons, List.not_mem_nil, or_false] at hp
    rcases hp with rfl | rfl | rfl | rfl | rfl <;> norm_num
  have hsvc : 0 ≤ _load_risk_config.w_domain_length
      ∧ 0 ≤ _load_risk_config.w_entropy_score ∧ 0 ≤ _load_risk_config.w_tld_risk
      ∧ 0 ≤ _load_risk_config.w_keyword_matches ∧ 0 ≤ _load_risk_config.w_age_days := by
    refine ⟨?_, ?_, ?_, ?_, ?_⟩ <;> norm_num [_load_risk_config]
  exact ⟨hw, hsvc,
    overall_and_service_score_bounds _get_default_config _load_risk_config
      ("example.com") none 0 hw hsvc⟩

/-- C3 counterexample: a malformed (unparseable-YAML) configuration source is
NOT recovered by `_load_config` — the `YAMLError` escapes to the caller,
refuting "never propagates an error". -/
theorem load_config_malformed_counterexample :
    _load_config ConfigSource.malformed = Except.error PyError.yamlError := rfl

/-- C3 (amended): only a missing config file (`FileNotFoundError`) is
recovered by substituting the built-in defaults; an unreadable file or
malformed YAML content propagates its error to the caller, and a valid
source is used as-is. -/
theorem load_config_amended :
    _load_config ConfigSource.missing = Except.ok _get_default_config
    ∧ (∀ c, _load_config (ConfigSource.valid c) = Except.ok c)
    ∧ _load_config ConfigSource.unreadable = Except.error PyError.permissionError
    ∧ _load_config ConfigSource.malformed = Except.error PyError.yamlError :=
  ⟨rfl, fun _ => rfl, rfl, rfl⟩

/-- C4 counterexample: on a domain with no dot the TLD recorded (and looked
up) by `score_tld` is the whole domain string, not the empty string — and it
keeps its original case. -/
theorem score_tld_no_dot_counterexample :
    (score_tld _get_default_config ("Example")).2.tld = ("Example")
    ∧ (("Example") : String) ≠ ("") :=
  ⟨score_tld_example_tld, by decide⟩

/-- C4 (amended): `score_tld` extracts the TLD as a dot followed by
everything after the last dot, keeping the original case (it is lower-cased
only for the `tld_risk_scores` lookup, which defaults to 0.5); when the
domain has no dot the whole domain string is used as the TLD. The looked-up
risk maps to 0.9 when > 0.7, 0.6 when > 0.5, else 0.2. The service layer's
`_get_tld` is the variant that returns the empty string when no dot is
present. -/
theorem tld_extraction_spec (cfg : RiskConfig) (d : String) :
    (('.' ∉ d.toList → (score_tld cfg d).2.tld = d) ∧
      ('.' ∈ d.toList → ∃ pre suf, d.toList = pre ++ '.' :: suf ∧ '.' ∉ suf ∧
        (score_tld cfg d).2.tld = String.mk ('.' :: suf))) ∧
    (score_tld cfg d).2.tld_risk
      = (List.lookup (pyLower (score_tld cfg d).2.tld) cfg.tld_risk_scores).getD 0.5 ∧
    (score_tld cfg d).1
      = (if (score_tld cfg d).2.tld_risk > 0.7 then (0.9:ℚ)
        else if (score_tld cfg d).2.tld_risk > 0.5 then 0.6 else 0.2) ∧
    ('.' ∉ d.toList → _get_tld d = ("")) ∧
    ('.' ∈ d.toList → ∃ pre suf, d.toList = pre ++ '.' :: suf ∧ '.' ∉ suf ∧
      _get_tld d = String.mk ('.' :: suf)) := by
  obtain ⟨ha, hb, hc⟩ := score_tld_spec cfg d
  obtain ⟨hd1, hd2⟩ := _get_tld_spec d
  exact ⟨ha, hb, hc, hd1, hd2⟩

/-- C5: every scorer is a total function returning a score drawn from its
fixed value set (hence a valid score in [0,1]) for any input string —
including the empty string, strings without a dot, and arbitrary unicode —
and the division guards hold: `calculate_entropy` is non-negative and the
empty string short-circuits to 0; the DGA-heuristic denominator
`vowels + 1` is positive; the full Mode A path classifies into the five
levels, and the full Mode B score is clamped into [0, 100] with a four-level
label. -/
theorem scorer_totality_and_validity (cfg : RiskConfig) (svc : ServiceConfig)
    (d : String) (cd : Option ℤ) (now : ℤ) :
    (score_domain_length d).1 ∈ ([0.8, 0.7, 0.4, 0.1] : List ℚ)
    ∧ (score_entropy d).1 ∈ ([0.9, 0.8, 0.3, 0.1] : List ℚ)
    ∧ (score_tld cfg d).1 ∈ ([0.9, 0.6, 0.2] : List ℚ)
    ∧ (score_keywords cfg d).1 ∈ ([0.95, 0.75, 0.5, 0.1] : List ℚ)
    ∧ (score_age cd now).1 ∈ ([0.5, 0.9, 0.7, 0.4, 0.1] : List ℚ)
    ∧ (score_ml_pattern d).1 ∈ ([0.8, 0.5, 0.2] : List ℚ)
    ∧ 0 ≤ calculate_entropy d
    ∧ calculate_entropy ("") = 0
    ∧ (0:ℚ) < (((leftLabel d.toList).filter
        (fun c => (("aeiou").toList).contains c.toLower)).length : ℚ) + 1
    ∧ (calculate_overall_risk cfg d cd now).risk_level
        ∈ ([("CRITICAL"), ("HIGH"), ("MEDIUM"), ("LOW"), ("VERY_LOW")] : List String)
    ∧ _calculate_length_risk svc d.toList.length ∈ ([1.0, 0.8, 0.6, 0.7, 0.2] : List ℚ)
    ∧ _calculate_tld_risk svc d ∈ ([0.9, 0.1, 0.4] : List ℚ)
    ∧ _calculate_keyword_risk svc d ∈ ([0.1, 0.5, 0.7, 0.9] : List ℚ)
    ∧ 0 ≤ _calculate_entropy_risk svc d
    ∧ _calculate_entropy_risk svc d ≤ 1
    ∧ 0 ≤ _calculate_risk_score svc d
    ∧ _calculate_risk_score svc d ≤ 100
    ∧ _get_risk_level (_calculate_risk_score svc d)
        ∈ ([("low"), ("medium"), ("high"), ("critical")] : List String) :=
  ⟨score_domain_length_fst_mem d, score_entropy_fst_mem d, score_tld_fst_mem cfg d,
    score_keywords_fst_mem cfg d, score_age_fst_mem cd now, score_ml_pattern_fst_mem d,
    calculate_entropy_nonneg d, calculate_entropy_empty, by positivity,
    risk_level_mem cfg d cd now, _calculate_length_risk_mem svc d.toList.length,
    _calculate_tld_risk_mem svc d, _calculate_keyword_risk_mem svc d,
    (_calculate_entropy_risk_bounds svc d).1, (_calculate_entropy_risk_bounds svc d).2,
    (_calculate_risk_score_bounds svc d).1, (_calculate_risk_score_bounds svc d).2,
    _get_risk_level_mem _⟩

end Claims

section ClaimsTwo

/-- C6: `calculate_entropy` is the base-2 Shannon entropy of the lower-cased
character distribution: it is 0 on the empty string and on `"aaaa"`,
positive on `"abcd"`; and `score_entropy` classifies the entropy of the
leftmost label (the characters before the first dot) as 0.9 below 2.0 bits,
0.8 above 4.5 bits, 0.3 in (4.0, 4.5], and 0.1 otherwise. -/
theorem entropy_values_and_classification :
    calculate_entropy ("") = 0
    ∧ calculate_entropy ("aaaa") = 0
    ∧ 0 < calculate_entropy ("abcd")
    ∧ ∀ d : String, (score_entropy d).1 =
        (if calculate_entropy (String.mk (d.toList.takeWhile (fun c => c != '.'))) < 2
          then (0.9:ℚ)
        else if 4.5 < calculate_entropy (String.mk (d.toList.takeWhile (fun c => c != '.')))
          then 0.8
        else if 4 < calculate_entropy (String.mk (d.toList.takeWhile (fun c => c != '.')))
          then 0.3
        else 0.1) :=
  ⟨calculate_entropy_empty, calculate_entropy_aaaa, calculate_entropy_abcd,
    score_entropy_spec⟩

/-- C7: appending a phishing keyword (in fact, any suffix) to a domain never
decreases the `keyword_matches` component score: every keyword matched in
the original lower-cased domain still matches in the extended one, so the
weighted match count, and with it the banded score, is monotone. -/
theorem keyword_append_monotone (cfg : RiskConfig) (d k : String)
    (_hk : k ∈ cfg.phishing_keywords) :
    (score_keywords cfg d).1 ≤ (score_keywords cfg (d ++ k)).1 :=
  score_keywords_append_mono cfg d k

theorem keyword_append_monotone_witness :
    ("phish") ∈ _get_default_config.phishing_keywords
    ∧ (score_keywords _get_default_config ("example.com")).1
      ≤ (score_keywords _get_default_config (("example.com") ++ ("phish"))).1 :=
  ⟨by decide, keyword_append_monotone _get_default_config ("example.com") ("phish")
    (by decide)⟩

/-- C8: scoring is deterministic — `calculate_overall_risk` is a pure
function of (config, domain, created_date, clock). Two calls with identical
domain, creation date, configuration and the same current time yield
identical `RiskResult` records (including the embedded timestamp, which is
just the shared clock value). -/
theorem calculate_overall_risk_deterministic (cfg : RiskConfig) (d : String)
    (cd : Option ℤ) (now₁ now₂ : ℤ) (h : now₁ = now₂) :
    calculate_overall_risk cfg d cd now₁ = calculate_overall_risk cfg d cd now₂ := by
  subst h
  rfl

theorem calculate_overall_risk_deterministic_witness :
    (0 : ℤ) = 0
    ∧ calculate_overall_risk _get_default_config ("example.com") none 0
      = calculate_overall_risk _get_default_config ("example.com") none 0 :=
  ⟨rfl, calculate_overall_risk_deterministic _get_default_config ("example.com")
    none 0 0 rfl⟩

/-- C9: `batch_score_domains` over N domains (with matching creation dates
when a list is supplied) returns exactly N results in input order, the i-th
being exactly the single-domain `calculate_overall_risk` of the i-th domain
with its creation date. -/
theorem batch_score_spec (cfg : RiskConfig) (domains : List String)
    (created_dates : Option (List (Option ℤ))) (now : ℤ)
    (_hlen : ∀ l, created_dates = some l → l.length = domains.length) :
    (batch_score_domains cfg domains created_dates now).length = domains.length
    ∧ ∀ (i : ℕ) (hi : i < domains.length),
        (batch_score_domains cfg domains created_dates now).get? i
          = some (calculate_overall_risk cfg (domains.get ⟨i, hi⟩)
              (created_dates.elim none (fun l => (l.get? i).getD none)) now) :=
  ⟨batch_score_domains_length cfg domains created_dates now,
    fun i hi => batch_score_domains_get cfg domains created_dates now i hi⟩

theorem batch_score_spec_witness :
    (∀ l, (some [none, some (5:ℤ)] : Option (List (Option ℤ))) = some l
      → l.length = ([("example.com"), ("secure-login.xyz")] : List String).length)
    ∧ ((batch_score_domains _get_default_config
          ([("example.com"), ("secure-login.xyz")]) (some [none, some (5:ℤ)]) 0).length
        = ([("example.com"), ("secure-login.xyz")] : List String).length
      ∧ ∀ (i : ℕ) (hi : i < ([("example.com"), ("secure-login.xyz")] : List String).length),
          (batch_score_domains _get_default_config
            ([("example.com"), ("secure-login.xyz")]) (some [none, some (5:ℤ)]) 0).get? i
            = some (calculate_overall_risk _get_default_config
                (([("example.com"), ("secure-login.xyz")] : List String).get ⟨i, hi⟩)
                ((some [none, some (5:ℤ)] : Option (List (Option ℤ))).elim none
                  (fun l => (l.get? i).getD none)) 0)) := by
  have hlen : ∀ l, (some [none, some (5:ℤ)] : Option (List (Option ℤ))) = some l
      → l.length = ([("example.com"), ("secure-login.xyz")] : List String).length := by
    intro l hl
    cases hl
    rfl
  exact ⟨hlen, batch_score_spec _get_default_config
    ([("example.com"), ("secure-login.xyz")]) (some [none, some (5:ℤ)]) 0 hlen⟩

/-- C10 (implicit): `score_ml_pattern` always returns at least 0.2, hence a
truthy (nonzero) score, so Mode A aggregation unconditionally takes the
pattern branch: the five base weighted terms are always rescaled by
`1 - 0.15` and `ml_score * 0.15` is always added, and the result dict always
carries a (non-`None`) `ml_pattern_score` entry. -/
theorem ml_pattern_always_blended (cfg : RiskConfig) (d : String) (cd : Option ℤ)
    (now : ℤ) :
    (0.2:ℚ) ≤ (score_ml_pattern d).1
    ∧ (score_ml_pattern d).1 ≠ 0
    ∧ (calculate_overall_risk cfg d cd now).overall_score
      = pyRound4 (min 0.99
          (((score_domain_length d).1 * ((List.lookup ("domain_length") cfg.weights).getD 0.15)
            + (score_entropy d).1 * ((List.lookup ("entropy_score") cfg.weights).getD 0.25)
            + (score_tld cfg d).1 * ((List.lookup ("tld_risk") cfg.weights).getD 0.20)
            + (score_keywords cfg d).1 * ((List.lookup ("keyword_matches") cfg.weights).getD 0.30)
            + (score_age cd now).1 * ((List.lookup ("age_days") cfg.weights).getD 0.10))
              * (1 - 0.15)
            + (score_ml_pattern d).1 * 0.15))
    ∧ (calculate_overall_risk cfg d cd now).ml_pattern_score
      = some (pyRound4 (score_ml_pattern d).1, (score_ml_pattern d).2) :=
  ⟨score_ml_pattern_fst_pos d, score_ml_pattern_fst_ne_zero d,
    overall_score_eq cfg d cd now, ml_pattern_score_eq cfg d cd now⟩

end ClaimsTwo
